import Mathlib

/-!
Shallow embedding of the rubik's-cube model from `src/model.py` and
`src/_src.py` (package `rubik`), together with theorems settling the
specification claims.

Conventions of the embedding:
* Python coordinate values are `float`, but every value the code ever produces
  is an exact multiple of `1/2`, so coordinates are embedded as `ℚ` (all the
  arithmetic involved — negation, truncation of exact halves/integers — is
  exact in both `float` and `ℚ`).
* Python `int` is `ℤ`; Python `//` on ints is `Int.fdiv` (floor division);
  Python `int(x)` on a float truncates toward zero; Python `%` on a positive
  modulus agrees with `Int.emod` (Lean's `%` on `ℤ`).
* In-place mutating methods are embedded as state-passing functions returning
  the final state together with an optional error: `Err.invalidArgument`
  stands for the explicitly raised `ValueError`s, and `Err.crash` for the
  unhandled exceptions (`IndexError` on string/list indexing, `KeyError` on a
  dictionary lookup miss, `ValueError` from `list.index` on a missing value)
  a call can run into.  In the source every raise and every crash site of
  `Cube.rotate` occurs before its mutation loop, so on the error path the
  returned state is the unchanged input state, which the embedding makes
  explicit.
* Strings are manipulated through their `data : List Char`; `direction[i]`
  is `List.get? i` (with `none` = `IndexError`), `'w' in direction` for the
  one-character pattern is list membership, and `direction.count(ch)` is
  `List.count`.
-/

namespace Rubik

/-- Error outcomes of a call: `invalidArgument` models the deliberately raised
`ValueError`s of the source, `crash` models unhandled exceptions
(`IndexError`, `KeyError`, `ValueError` from `list.index`). -/
inductive Err where
  | invalidArgument
  | crash
deriving DecidableEq, Repr

/-- A colour value, `_src.py`'s `_COLOUR` minus the `None` case: an
`(id, label)` pair. Absence is an explicit `Option` at each use site. -/
def Colour : Type := ℕ × String
deriving instance DecidableEq, Repr for Colour

/- Cube colour table `COLOURS.CUBE` of `_src.py`. -/
namespace COLOURS

namespace CUBE

def B : Colour := (2, "B")

def G : Colour := (3, "G")

def O : Colour := (4, "O")

def R : Colour := (1, "R")

def W : Colour := (0, "W")

def Y : Colour := (5, "Y")

end CUBE

end COLOURS

/-- Position type `_POS` of `_src.py`: an `(x, y, z)` coordinate triple. -/
def Pos : Type := ℚ × ℚ × ℚ
deriving instance DecidableEq, Repr for Pos

/-- Tuple indexing `pos[i]` for the axis indices 0, 1, 2 used by the source
(the source never indexes a position out of range). -/
def Pos.get (p : Pos) : ℕ → ℚ
  | 0 => p.1
  | 1 => p.2.1
  | 2 => p.2.2
  | _ => 0

/-- The colour tuple `_COLOUR_PIECE_CUBE` of `_src.py`:
`((xp, xn), (yp, yn), (zp, zn))`. -/
def ColoursT : Type :=
  (Option Colour × Option Colour) ×
  (Option Colour × Option Colour) ×
  (Option Colour × Option Colour)
deriving instance DecidableEq, Repr for ColoursT

/-- Tuple indexing `colours[axis][polarity]` for the in-range indices used by
the source. -/
def ColoursT.get (cs : ColoursT) : ℕ → ℕ → Option Colour
  | 0, 0 => cs.1.1
  | 0, 1 => cs.1.2
  | 1, 0 => cs.2.1.1
  | 1, 1 => cs.2.1.2
  | 2, 0 => cs.2.2.1
  | 2, 1 => cs.2.2.2
  | _, _ => none

/-- `Cube_Piece` of `model.py`: a position plus six optional directional
colour slots (`_col_xp`, `_col_xn`, `_col_yp`, `_col_yn`, `_col_zp`,
`_col_zn`; the leading underscore is dropped). -/
structure Cube_Piece where
  pos : Pos
  col_xp : Option Colour
  col_xn : Option Colour
  col_yp : Option Colour
  col_yn : Option Colour
  col_zp : Option Colour
  col_zn : Option Colour
deriving DecidableEq, Repr

/-- The `colours` property getter of `Cube_Piece`. -/
def Cube_Piece.colours (p : Cube_Piece) : ColoursT :=
  ((p.col_xp, p.col_xn), (p.col_yp, p.col_yn), (p.col_zp, p.col_zn))

/-- The `colours` property setter of `Cube_Piece`.  The Python pattern is
`((self._col_xp, self._col_xn), (self._col_yn, self._col_yn),
(self._col_zp, self._col_zn)) = data`: tuple destructuring assigns left to
right, the name `_col_yn` is bound twice (so it ends up holding `data[1][1]`),
and `_col_yp` is never assigned, keeping its previous value. -/
def Cube_Piece.setColours (p : Cube_Piece) (data : ColoursT) : Cube_Piece :=
  { p with
    col_xp := data.1.1
    col_xn := data.1.2
    col_yn := data.2.1.2
    col_zp := data.2.2.1
    col_zn := data.2.2.2 }

/-- `Cube_Piece.rotate` of `model.py`: validate the axis token (an unknown
token raises `ValueError`), then update the position via the position
dictionary and the colour slots via the colour dictionary applied through the
`colours` setter.  The default match branches are unreachable: the dictionary
lookups happen only after `axis` was validated to be one of `"x"`, `"y"`,
`"z"`. -/
def Cube_Piece.rotate (p : Cube_Piece) (axis : String) : Cube_Piece × Option Err :=
  if axis ∉ (["x", "y", "z"] : List String) then (p, some .invalidArgument)
  else
    let p1 : Cube_Piece :=
      { p with pos :=
          match axis with
          | "x" => (p.pos.1, -1 * p.pos.2.2, p.pos.2.1)
          | "y" => (p.pos.2.2, p.pos.2.1, -1 * p.pos.1)
          | "z" => (-1 * p.pos.2.1, p.pos.1, p.pos.2.2)
          | _ => p.pos }
    let cs := p1.colours
    let newCols : ColoursT :=
      match axis with
      | "x" => (cs.1, (cs.2.2.2, cs.2.2.1), (cs.2.1.1, cs.2.1.2))
      | "y" => ((cs.2.2.1, cs.2.2.2), cs.2.1, (cs.1.2, cs.1.1))
      | "z" => ((cs.2.1.2, cs.2.1.1), (cs.1.1, cs.1.2), cs.2.2)
      | _ => cs
    (p1.setColours newCols, none)

/-- Python `range(a, b)` over integers. -/
def pyRange (a b : ℤ) : List ℤ :=
  (List.range (b - a).toNat).map (fun (n : ℕ) => a + (n : ℤ))

/-- Python `int(x)` on a float: truncation toward zero (every float the source
truncates is an exact integer, so truncation over `ℚ` is faithful). -/
def pyTrunc (q : ℚ) : ℤ :=
  if q < 0 then Int.ceil q else Int.floor q

/-- Python single-character-string repetition `s * n` (for `n` from
`range(...)`, hence a natural number). -/
def pyStrMul (s : String) (n : ℕ) : String :=
  String.mk (List.flatten (List.replicate n s.data))

/-- The apostrophe character used by the counterclockwise move suffix. -/
def primeChar : Char := Char.ofNat 39

/-- The counterclockwise move suffix string `"'"`. -/
def primeStr : String := String.mk [primeChar]

/-- `Cube` of `model.py`: derived coordinate system plus the piece list. -/
structure Cube where
  size : ℤ
  odd : Bool
  edge_val : ℚ
  coord_vals : List ℚ
  pcs : List Cube_Piece
deriving DecidableEq, Repr

/-- The body of `Cube.__init__` of `model.py` (after its parameter
validation): derivation of `edge_val` and `coord_vals`, then generation of
the visible pieces.  The even branch is translated literally:
`[(i//10)+0.5 for i in range(int(-10*edge_val), int(10*edge_val))]` with `//`
as floor division.  A piece's colour slot dictionaries
`{True: colour, False: None}[cond]` are conditionals. -/
def Cube.make (size : ℤ) : Cube :=
  let odd : Bool := size % 2 == 1
  let edge_val : ℚ :=
    if !odd then ((size.fdiv 2 : ℤ) : ℚ) - 0.5
    else (((size - 1).fdiv 2 : ℤ) : ℚ)
  let coord_vals : List ℚ :=
    if !odd then
      (pyRange (pyTrunc (-10 * edge_val)) (pyTrunc (10 * edge_val))).map
        (fun i => ((i.fdiv 10 : ℤ) : ℚ) + 0.5)
    else
      (pyRange (pyTrunc (-1 * edge_val)) (pyTrunc (edge_val + 1))).map
        (fun (i : ℤ) => (i : ℚ))
  let pcs : List Cube_Piece :=
    coord_vals.flatMap (fun i =>
      coord_vals.flatMap (fun j =>
        (coord_vals.filter (fun k =>
            decide (|i| = edge_val ∨ |j| = edge_val ∨ |k| = edge_val))).map
          (fun k =>
            { pos := (i, j, k)
              col_xp := if i = edge_val then some COLOURS.CUBE.B else none
              col_xn := if i = -1 * edge_val then some COLOURS.CUBE.G else none
              col_yp := if j = edge_val then some COLOURS.CUBE.W else none
              col_yn := if j = -1 * edge_val then some COLOURS.CUBE.Y else none
              col_zp := if k = edge_val then some COLOURS.CUBE.R else none
              col_zn := if k = -1 * edge_val then some COLOURS.CUBE.O else none })))
  { size := size, odd := odd, edge_val := edge_val, coord_vals := coord_vals, pcs := pcs }

/-- `Cube.__init__` of `model.py` including its parameter validation:
`size < 2` raises `ValueError` (the `isinstance` check is subsumed by the
type `ℤ`). -/
def Cube.init (size : ℤ) : Except Err Cube :=
  if size < 2 then .error .invalidArgument else .ok (Cube.make size)

/-- The `_directions_inner` list of `Cube.rotate`: for each lowercase face
letter, the tokens of that letter repeated `i + 1` times for
`i ∈ range((size - 2) // 2)`. -/
def Cube.directionsInner (size : ℤ) : List String :=
  (["b", "d", "f", "l", "r", "t"] : List String).flatMap (fun s =>
    (List.range ((size - 2).fdiv 2).toNat).map (fun i => pyStrMul s (i + 1)))

/-- The `valid_directions` list of `Cube.rotate`: every token of
`outer ++ inner ++ rotate` with each of the suffixes `""`, `"'"`, `"2"`,
followed by every inner token with the wide suffix `"w"`. -/
def Cube.validDirections (size : ℤ) : List String :=
  let inner := Cube.directionsInner size
  let outer : List String := ["B", "D", "F", "L", "R", "T"]
  let rot : List String := ["x", "y", "z"]
  ((outer ++ inner ++ rot).flatMap (fun s =>
      (["", primeStr, "2"] : List String).map (fun suffix => s ++ suffix)))
    ++ inner.map (fun s => s ++ "w")

/-- The axis-selection dictionary lookup of `Cube.rotate`.  The source
unconditionally evaluates `direction[0]`, `direction[1]` and `direction[2]`
(raising `IndexError` on a token shorter than three characters) and then
indexes a dictionary whose only keys are the three one-hot boolean triples
(raising `KeyError` on any other combination); `none` models both crashes. -/
def rotateAxis (direction : String) : Option (ℕ × String) :=
  match direction.data.get? 0, direction.data.get? 1, direction.data.get? 2 with
  | some c0, some c1, some c2 =>
    match (decide (c0 ∈ (['x', 'l', 'L', 'r', 'R'] : List Char)),
           decide (c1 ∈ (['y', 'd', 'D', 't', 'T'] : List Char)),
           decide (c2 ∈ (['z', 'b', 'B', 'f', 'F'] : List Char))) with
    | (true, false, false) => some (0, "x")
    | (false, true, false) => some (1, "y")
    | (false, false, true) => some (2, "z")
    | _ => none
  | _, _, _ => none

/-- The `num_rotations` dictionary lookup of `Cube.rotate`, keyed on
`(axis_negative, direction[-1] == '2', direction[-1] == "'")`; the two keys
absent from the dictionary are unreachable since the last character cannot be
`'2'` and `"'"` at once.  `direction[-1]` is the last character (`direction`
is never empty at this point, having passed validation). -/
def rotateNum (direction : String) : Option ℕ :=
  let axis_negative : Bool :=
    match direction.data.get? 0 with
    | some c0 => decide (c0 ∈ (['f', 'F', 'r', 'R', 't', 'T'] : List Char))
    | none => false
  match (axis_negative,
         direction.data.getLast? == some '2',
         direction.data.getLast? == some primeChar) with
  | (true, false, false) => some 3
  | (true, true, false) => some 2
  | (true, false, true) => some 1
  | (false, false, false) => some 1
  | (false, true, false) => some 2
  | (false, false, true) => some 3
  | _ => none

/-- The `layer_vals` computation of `Cube.rotate` (lines 422-470): walk
`enumerate(coord_vals)` and keep the values selected by the notation.
`direction.count(direction[0])` is the repetition count of the leading
character and `'w' in direction` the wide marker test. -/
def Cube.layerVals (c : Cube) (direction : String) : List ℚ :=
  let chars := direction.data
  let c0 : Char := chars.headD ' '
  let cnt : ℕ := chars.count c0
  let w : Bool := decide ('w' ∈ chars)
  ((c.coord_vals.enum.filter (fun iv =>
      let i := iv.1
      let val := iv.2
      if c0 ∈ (['x', 'y', 'z'] : List Char) then true
      else if val = -1 * c.edge_val ∧
          (c0 ∈ (['B', 'D', 'L'] : List Char) ∨
            (c0 ∈ (['b', 'd', 'l'] : List Char) ∧ w = true)) then true
      else if val = c.edge_val ∧
          (c0 ∈ (['F', 'R', 'T'] : List Char) ∨
            (c0 ∈ (['f', 'r', 't'] : List Char) ∧ w = true)) then true
      else if c0 ∈ (['b', 'd', 'f', 'l', 'r', 't'] : List Char) then
        if c0 ∈ (['l', 'f', 't'] : List Char) then
          decide ((c.size - 1 - (i : ℤ)) = (cnt : ℤ) ∨
            ((c.size - 1 - (i : ℤ)) < (cnt : ℤ) ∧ w = true))
        else if c0 ∈ (['r', 'b', 'd'] : List Char) then
          decide ((i : ℤ) = (cnt : ℤ) ∨ ((i : ℤ) < (cnt : ℤ) ∧ w = true))
        else false
      else false)).map (fun iv => iv.2))

/-- `n`-fold application, the `for _ in range(n)` loop body iteration. -/
def applyN (f : α → α) : ℕ → α → α
  | 0, a => a
  | n + 1, a => applyN f n (f a)

/-- `Cube.rotate` of `model.py` as a state-passing function: the returned
cube is the state after the call, the `Option Err` the raised error, if any.
Stages in source order: `valid_directions` membership check (`ValueError` on
failure), axis selection (possible `IndexError`/`KeyError`), `num_rotations`
selection, `layer_vals` computation, and finally the mutation pass which
rotates every piece whose coordinate on the chosen axis lies in `layer_vals`.
All error paths precede the mutation pass, so they return the input cube
unchanged.  Inside the mutation pass `pce.rotate(axis_str)` is called with
`axis_str ∈ {"x", "y", "z"}` and hence never raises; `.1` discards its
statically-`none` error component. -/
def Cube.rotate (c : Cube) (direction : String) : Cube × Option Err :=
  if direction ∉ Cube.validDirections c.size then (c, some .invalidArgument)
  else
    match rotateAxis direction with
    | none => (c, some .crash)
    | some (axis, axis_str) =>
      match rotateNum direction with
      | none => (c, some .crash)
      | some num_rotations =>
        let layer_vals := Cube.layerVals c direction
        ({ c with pcs := c.pcs.map (fun pce =>
            if Pos.get pce.pos axis ∈ layer_vals then
              applyN (fun q => (Cube_Piece.rotate q axis_str).1) num_rotations pce
            else pce) }, none)

/-- First index of a value in a list, Python `list.index` (with `none` for
the `ValueError` raised when the value is absent). -/
def listIndex (l : List ℚ) (v : ℚ) : Option ℕ :=
  match l with
  | [] => none
  | x :: xs => if x = v then some 0 else (listIndex xs v).map (· + 1)

/-- In-bounds list update: `some` of the updated list when `i < length`,
`none` for the `IndexError` raised otherwise. -/
def setAt (l : List α) (i : ℕ) (a : α) : Option (List α) :=
  if i < l.length then some (l.set i a) else none

/-- In-bounds 2-D grid update `grid[r][ci] = a`. -/
def setAt2 (grid : List (List α)) (r ci : ℕ) (a : α) : Option (List (List α)) :=
  match grid.get? r with
  | none => none
  | some row =>
    match setAt row ci a with
    | none => none
    | some row2 => some (grid.set r row2)

/-- `Cube._get_layout` of `model.py`: validate the layer token (`ValueError`
on failure), select the per-face `(col_axis, col_polarity, axis_x, axis_y,
x_polarity, y_polarity)` parameters, start from a `size × size` grid of empty
strings and place each piece's selected colour label at the grid cell indexed
through `coord_vals.index`.  A missing value in `coord_vals`
(`ValueError` from `list.index`) or an out-of-range grid index (`IndexError`)
is a crash.  With `face_only = false` the source computes the face and then
returns the empty list. -/
def Cube.get_layout (c : Cube) (layer : String) (face_only : Bool) :
    Except Err (List (List String)) :=
  if layer ∉ (["B", "D", "F", "L", "R", "T"] : List String) then
    .error .invalidArgument
  else
    let params : ℕ × ℕ × ℕ × ℕ × ℤ × ℤ :=
      match layer with
      | "R" => (0, 0, 2, 1, -1, -1)
      | "T" => (1, 0, 0, 2, 1, 1)
      | "F" => (2, 0, 0, 1, 1, -1)
      | "L" => (0, 1, 2, 1, 1, -1)
      | "B" => (2, 1, 0, 1, -1, -1)
      | _ => (1, 1, 0, 2, 1, -1)
    let col_axis := params.1
    let col_polarity := params.2.1
    let axis_x := params.2.2.1
    let axis_y := params.2.2.2.1
    let x_polarity := params.2.2.2.2.1
    let y_polarity := params.2.2.2.2.2
    let face0 : List (List String) :=
      List.replicate c.size.toNat (List.replicate c.size.toNat "")
    let res : Except Err (List (List String)) :=
      c.pcs.foldlM (fun face pce =>
        match ColoursT.get pce.colours col_axis col_polarity with
        | none => pure face
        | some col =>
          match listIndex c.coord_vals (Pos.get pce.pos axis_y * (y_polarity : ℚ)),
                listIndex c.coord_vals (Pos.get pce.pos axis_x * (x_polarity : ℚ)) with
          | some r, some ci =>
            match setAt2 face r ci col.2 with
            | some face2 => pure face2
            | none => .error .crash
          | _, _ => .error .crash) face0
    match res with
    | .error e => .error e
    | .ok face => if face_only then .ok face else .ok []

end Rubik

deriving instance DecidableEq for Except

namespace Rubik

/-!
Theorems settling the specification claims.
-/

/-- A corner piece of the solved 3-cube (position `(1, 1, 1)`, colours
`B`/`W`/`R` on the three positive faces), used as a concrete test piece. -/
def samplePiece : Cube_Piece :=
  { pos := (1, 1, 1)
    col_xp := some COLOURS.CUBE.B
    col_xn := none
    col_yp := some COLOURS.CUBE.W
    col_yn := none
    col_zp := some COLOURS.CUBE.R
    col_zn := none }

/-- Spec-side predicate: every entry of `coord_vals` has its negation in
`coord_vals`. -/
def negClosed (c : Cube) : Bool :=
  c.coord_vals.all (fun v => decide (-v ∈ c.coord_vals))

/-- Spec-side predicate: every piece's three position components are members
of the cube's `coord_vals`. -/
def posInCoords (c : Cube) : Bool :=
  c.pcs.all (fun p =>
    decide (p.pos.1 ∈ c.coord_vals) && decide (p.pos.2.1 ∈ c.coord_vals) &&
      decide (p.pos.2.2 ∈ c.coord_vals))

/-- Propositional form of a piece's position components lying in a
coordinate list. -/
def posMemL (L : List ℚ) (p : Cube_Piece) : Prop :=
  p.pos.1 ∈ L ∧ p.pos.2.1 ∈ L ∧ p.pos.2.2 ∈ L

/-- C1: the claim states that four applications of `Cube_Piece.rotate` with
any axis token restore the piece exactly.  The code violates it: for the
solved-cube corner at `(1, 1, 1)` four `"x"` rotations return the position to
`(1, 1, 1)` but corrupt the colour slots (the `colours` setter assigns the
supplied y-pair to `_col_yn` twice and never writes `_col_yp`), ending with
`col_yn = col_zp = col_zn = W` instead of the original
`col_yn = col_zn = none`, `col_zp = R`. -/
theorem claim_C1_rotate_four_not_involutive :
    applyN (fun q => (Cube_Piece.rotate q "x").1) 4 samplePiece ≠ samplePiece ∧
    (applyN (fun q => (Cube_Piece.rotate q "x").1) 4 samplePiece).pos = samplePiece.pos ∧
    (applyN (fun q => (Cube_Piece.rotate q "x").1) 4 samplePiece).col_yn =
      some COLOURS.CUBE.W := by
  decide!

/-- C2: the claim states `coord_vals` has exactly `size` distinct, evenly
spaced entries.  The code violates it for every even size: at `size = 2` the
even-size comprehension `[(i//10)+0.5 for i in range(int(-10*edge_val),
int(10*edge_val))]` produces ten entries — each of `-1/2` and `1/2`
duplicated five times — instead of the two distinct values. -/
theorem claim_C2_coord_vals_even_size_broken :
    (Cube.make 2).coord_vals =
      List.replicate 5 (-(1 / 2) : ℚ) ++ List.replicate 5 ((1 / 2) : ℚ) ∧
    (Cube.make 2).coord_vals.length = 10 ∧
    ¬ (Cube.make 2).coord_vals.Nodup := by
  decide!

/-- C3: the claim states the piece collection has `6·size² − 12·size + 8`
pieces (8 for size 2).  Because the even-size coordinate list contains every
value five times, the generation loop at `size = 2` creates `10³ = 1000`
pieces instead of 8. -/
theorem claim_C3_piece_count_size2_broken :
    (Cube.make 2).pcs.length = 1000 := by
  decide!

/-- C4: the claim states that an accepted single-inner-layer token resolves
to the one coordinate at depth `d` from that face's own side.  The code
violates it twice over: (a) `Cube.rotate` unconditionally evaluates
`direction[1]` and `direction[2]`, so the accepted depth-1 token `"f"` on a
size-5 cube crashes with `IndexError` before any layer is resolved; (b) the
depth indexing for the x-axis faces is mirrored the wrong way: on a size-9
cube (coordinates `-4 … 4`) the token `"lll"` — depth 3 from the left face,
coordinate `-1` — resolves to `[1]`, and `"rrr"` — depth 3 from the right
face, coordinate `1` — resolves to `[-1]`. -/
theorem claim_C4_inner_layer_resolution_broken :
    Cube.rotate (Cube.make 5) "f" = (Cube.make 5, some Err.crash) ∧
    Cube.layerVals (Cube.make 9) "lll" = [(1 : ℚ)] ∧
    Cube.layerVals (Cube.make 9) "rrr" = [(-1 : ℚ)] := by
  refine ⟨by decide!, by decide!, by decide!⟩

/-- C8: the claim states face extraction succeeds for every size ≥ 2.  For
even sizes the duplicated `coord_vals` makes `coord_vals.index` return
row/column indices up to `10·size − 11`, overflowing the `size × size` grid:
on the freshly constructed 2-cube extracting the top face raises
`IndexError`. -/
theorem claim_C8_get_layout_even_size_crashes :
    Cube.get_layout (Cube.make 2) "T" true = Except.error Err.crash := by
  decide!

/-- Rotating a piece never touches its `_col_yp` slot: on the invalid-axis
path the piece is returned unchanged, and on the valid path the `colours`
setter never assigns `_col_yp`. -/
lemma Cube_Piece.rotate_fst_col_yp (p : Cube_Piece) (a : String) :
    (Cube_Piece.rotate p a).1.col_yp = p.col_yp := by
  unfold Cube_Piece.rotate
  split <;> rfl

/-- C9: `Cube_Piece.rotate` leaves the positive-y colour slot `_col_yp`
unchanged for every axis token (the `colours` setter destructures the
supplied y-pair into `_col_yn` twice and never assigns `_col_yp`), so after
any sequence of rotations `_col_yp` still equals its initial value. -/
theorem claim_C9_col_yp_never_written (p : Cube_Piece) (axis : String)
    (axes : List String) :
    (Cube_Piece.rotate p axis).1.col_yp = p.col_yp ∧
    (axes.foldl (fun q a => (Cube_Piece.rotate q a).1) p).col_yp = p.col_yp := by
  refine ⟨Cube_Piece.rotate_fst_col_yp p axis, ?_⟩
  induction axes generalizing p with
  | nil => rfl
  | cons a as ih =>
    simp only [List.foldl_cons]
    rw [ih, Cube_Piece.rotate_fst_col_yp]

/-- C9 witness: two concrete rotations of the solved-cube corner leave
`_col_yp` at its initial value `W`. -/
theorem claim_C9_witness :
    (Cube_Piece.rotate samplePiece "x").1.col_yp = samplePiece.col_yp ∧
    ((["x", "z"] : List String).foldl (fun q a => (Cube_Piece.rotate q a).1)
      samplePiece).col_yp = samplePiece.col_yp :=
  claim_C9_col_yp_never_written samplePiece "x" ["x", "z"]

/-- C7: one application of `Cube_Piece.rotate` maps the position `(x, y, z)`
to `(x, -z, y)` for axis `"x"`, to `(z, y, -x)` for axis `"y"`, and to
`(-y, x, z)` for axis `"z"` (negation written `-1 * _` as in the source),
raising no error; any other axis token fails with the invalid-argument error
and leaves the piece unchanged. -/
theorem claim_C7_position_transform (p : Cube_Piece) (axis : String) :
    ((Cube_Piece.rotate p "x").1.pos = (p.pos.1, -1 * p.pos.2.2, p.pos.2.1) ∧
      (Cube_Piece.rotate p "x").2 = none) ∧
    ((Cube_Piece.rotate p "y").1.pos = (p.pos.2.2, p.pos.2.1, -1 * p.pos.1) ∧
      (Cube_Piece.rotate p "y").2 = none) ∧
    ((Cube_Piece.rotate p "z").1.pos = (-1 * p.pos.2.1, p.pos.1, p.pos.2.2) ∧
      (Cube_Piece.rotate p "z").2 = none) ∧
    (axis ∉ (["x", "y", "z"] : List String) →
      Cube_Piece.rotate p axis = (p, some Err.invalidArgument)) := by
  refine ⟨⟨rfl, rfl⟩, ⟨rfl, rfl⟩, ⟨rfl, rfl⟩, fun h => ?_⟩
  unfold Cube_Piece.rotate
  rw [if_pos h]

/-- C7 witness: the `"x"` transform at the concrete corner piece, and the
invalid axis token `"w"` rejected with the piece unchanged. -/
theorem claim_C7_witness :
    ((Cube_Piece.rotate samplePiece "x").1.pos =
      (samplePiece.pos.1, -1 * samplePiece.pos.2.2, samplePiece.pos.2.1)) ∧
    Cube_Piece.rotate samplePiece "w" = (samplePiece, some Err.invalidArgument) :=
  ⟨(claim_C7_position_transform samplePiece "w").1.1,
    (claim_C7_position_transform samplePiece "w").2.2.2 (by decide)⟩

/-- A token outside `valid_directions` makes `Cube.rotate` take its first
raise, before anything is computed or mutated. -/
lemma Cube.rotate_of_not_mem {c : Cube} {direction : String}
    (h : direction ∉ Cube.validDirections c.size) :
    Cube.rotate c direction = (c, some Err.invalidArgument) := by
  unfold Cube.rotate
  rw [if_pos h]

/-- C6: for every cube state and every notation string outside the legal
token set for the cube's size, `Cube.rotate` fails with the invalid-argument
error and returns the cube state exactly unchanged (the validation raise
precedes the mutation loop). -/
theorem claim_C6_invalid_notation_rejected (c : Cube) (direction : String)
    (h : direction ∉ Cube.validDirections c.size) :
    Cube.rotate c direction = (c, some Err.invalidArgument) :=
  Cube.rotate_of_not_mem h

/-- C6 witness: the unsupported token `"Q"` on a solved 3-cube. -/
theorem claim_C6_witness :
    Cube.rotate (Cube.make 3) "Q" = (Cube.make 3, some Err.invalidArgument) :=
  claim_C6_invalid_notation_rejected (Cube.make 3) "Q" (by decide!)

/-- C5 counterexample: the claim asserts every inner-layer depth from 1 to
`size − 2` is legal, so `"f"` (depth `1 = 3 − 2`) should be accepted on a
3-cube; the code enumerates inner depths only up to `(size − 2) // 2 = 0` and
rejects it with the invalid-argument error. -/
theorem claim_C5_counterexample :
    "f" ∉ Cube.validDirections 3 ∧
    Cube.rotate (Cube.make 3) "f" = (Cube.make 3, some Err.invalidArgument) :=
  ⟨by decide!, Cube.rotate_of_not_mem (by decide!)⟩

/-- Membership in a Python integer range. -/
lemma mem_pyRange {a b v : ℤ} : v ∈ pyRange a b ↔ a ≤ v ∧ v < b := by
  unfold pyRange
  simp only [List.mem_map, List.mem_range]
  constructor
  · rintro ⟨n, hn, rfl⟩
    omega
  · rintro ⟨h1, h2⟩
    exact ⟨(v - a).toNat, by omega, by omega⟩

/-- Truncation of an exact integer is that integer. -/
lemma pyTrunc_intCast (n : ℤ) : pyTrunc ((n : ℤ) : ℚ) = n := by
  unfold pyTrunc
  split <;> simp

/-- The even-size branch of `Cube.make` computes `coord_vals` over
`range(5 - 10*(size//2), 10*(size//2) - 5)`. -/
lemma Cube.make_coord_vals_even {size : ℤ} (h : ((size % 2 : ℤ) == 1) = false) :
    (Cube.make size).coord_vals =
      (pyRange (5 - 10 * size.fdiv 2) (10 * size.fdiv 2 - 5)).map
        (fun i => ((i.fdiv 10 : ℤ) : ℚ) + 0.5) := by
  have h05 : (0.5 : ℚ) = 1 / 2 := by norm_num
  have hlo : pyTrunc (-10 * (((size.fdiv 2 : ℤ) : ℚ) - 0.5)) = 5 - 10 * size.fdiv 2 := by
    rw [show (-10 * (((size.fdiv 2 : ℤ) : ℚ) - 0.5)) = (((5 - 10 * size.fdiv 2 : ℤ)) : ℚ) by
        rw [h05]; push_cast; ring]
    exact pyTrunc_intCast _
  have hhi : pyTrunc (10 * (((size.fdiv 2 : ℤ) : ℚ) - 0.5)) = 10 * size.fdiv 2 - 5 := by
    rw [show (10 * (((size.fdiv 2 : ℤ) : ℚ) - 0.5)) = (((10 * size.fdiv 2 - 5 : ℤ)) : ℚ) by
        rw [h05]; push_cast; ring]
    exact pyTrunc_intCast _
  simp only [Cube.make, h, Bool.not_false, if_true, hlo, hhi]

/-- The odd-size branch of `Cube.make` computes `coord_vals` over
`range(-edge, edge + 1)` with `edge = (size - 1) // 2`. -/
lemma Cube.make_coord_vals_odd {size : ℤ} (h : ((size % 2 : ℤ) == 1) = true) :
    (Cube.make size).coord_vals =
      (pyRange (-((size - 1).fdiv 2)) ((size - 1).fdiv 2 + 1)).map
        (fun (i : ℤ) => (i : ℚ)) := by
  have hlo : pyTrunc (-1 * ((((size - 1).fdiv 2 : ℤ)) : ℚ)) = -((size - 1).fdiv 2) := by
    rw [show (-1 * ((((size - 1).fdiv 2 : ℤ)) : ℚ)) = (((-((size - 1).fdiv 2) : ℤ)) : ℚ) by
        push_cast; ring]
    exact pyTrunc_intCast _
  have hhi : pyTrunc (((((size - 1).fdiv 2 : ℤ)) : ℚ) + 1) = (size - 1).fdiv 2 + 1 := by
    rw [show ((((((size - 1).fdiv 2 : ℤ)) : ℚ)) + 1) = ((((size - 1).fdiv 2 + 1 : ℤ)) : ℚ) by
        push_cast; ring]
    exact pyTrunc_intCast _
  simp only [Cube.make, h, Bool.not_true, Bool.false_eq_true, if_false, hlo, hhi]

/-- `coord_vals` of a constructed cube is closed under negation (for both
parities: the odd list is `-e … e`, and the even list's value multiset is
symmetric because `i' = -i - 1` mirrors both the range and the floor-divided
value). -/
lemma Cube.make_neg_closed (size : ℤ) :
    ∀ v ∈ (Cube.make size).coord_vals, -v ∈ (Cube.make size).coord_vals := by
  intro v hv
  cases hodd : ((size % 2 : ℤ) == 1) with
  | true =>
    rw [Cube.make_coord_vals_odd hodd] at hv ⊢
    simp only [List.mem_map] at hv ⊢
    obtain ⟨i, hi, rfl⟩ := hv
    obtain ⟨h1, h2⟩ := mem_pyRange.mp hi
    exact ⟨-i, mem_pyRange.mpr ⟨by omega, by omega⟩, by push_cast; ring⟩
  | false =>
    rw [Cube.make_coord_vals_even hodd] at hv ⊢
    simp only [List.mem_map] at hv ⊢
    obtain ⟨i, hi, rfl⟩ := hv
    obtain ⟨h1, h2⟩ := mem_pyRange.mp hi
    refine ⟨-i - 1, mem_pyRange.mpr ⟨by omega, by omega⟩, ?_⟩
    have hfd : (-i - 1).fdiv 10 = -(i.fdiv 10) - 1 := by
      rw [Int.fdiv_eq_ediv _ (by norm_num), Int.fdiv_eq_ediv _ (by norm_num)]
      omega
    rw [hfd]
    have h05 : (0.5 : ℚ) = 1 / 2 := by norm_num
    rw [h05]
    push_cast
    ring

/-- The piece list of a constructed cube, written through the record's own
fields. -/
lemma Cube.make_pcs_eq (size : ℤ) :
    (Cube.make size).pcs =
      (Cube.make size).coord_vals.flatMap (fun i =>
        (Cube.make size).coord_vals.flatMap (fun j =>
          ((Cube.make size).coord_vals.filter (fun k =>
              decide (|i| = (Cube.make size).edge_val ∨
                |j| = (Cube.make size).edge_val ∨
                |k| = (Cube.make size).edge_val))).map
            (fun k =>
              { pos := (i, j, k)
                col_xp := if i = (Cube.make size).edge_val then some COLOURS.CUBE.B else none
                col_xn := if i = -1 * (Cube.make size).edge_val then some COLOURS.CUBE.G else none
                col_yp := if j = (Cube.make size).edge_val then some COLOURS.CUBE.W else none
                col_yn := if j = -1 * (Cube.make size).edge_val then some COLOURS.CUBE.Y else none
                col_zp := if k = (Cube.make size).edge_val then some COLOURS.CUBE.R else none
                col_zn := if k = -1 * (Cube.make size).edge_val then some COLOURS.CUBE.O else none }))) :=
  rfl

/-- Every generated piece's coordinates are drawn from `coord_vals`. -/
lemma Cube.make_pcs_pos (size : ℤ) :
    ∀ p ∈ (Cube.make size).pcs, posMemL (Cube.make size).coord_vals p := by
  intro p hp
  rw [Cube.make_pcs_eq] at hp
  simp only [List.mem_flatMap, List.mem_map, List.mem_filter] at hp
  obtain ⟨i, hi, j, hj, k, ⟨hk, -⟩, rfl⟩ := hp
  exact ⟨hi, hj, hk⟩

/-- A single piece rotation keeps every position component inside a
negation-closed coordinate list: the valid-axis transforms only permute and
negate components, and an invalid token leaves the piece unchanged. -/
lemma Cube_Piece.rotate_pos_mem {L : List ℚ} (hneg : ∀ v ∈ L, -v ∈ L)
    (a : String) (p : Cube_Piece) (h : posMemL L p) :
    posMemL L (Cube_Piece.rotate p a).1 := by
  obtain ⟨h1, h2, h3⟩ := h
  by_cases ha : a ∈ (["x", "y", "z"] : List String)
  · have hn1 := hneg _ h1
    have hn2 := hneg _ h2
    have hn3 := hneg _ h3
    rcases (by simpa using ha : a = "x" ∨ a = "y" ∨ a = "z") with rfl | rfl | rfl
    · refine ⟨h1, ?_, h2⟩
      show -1 * p.pos.2.2 ∈ L
      simpa [neg_one_mul] using hn3
    · refine ⟨h3, h2, ?_⟩
      show -1 * p.pos.1 ∈ L
      simpa [neg_one_mul] using hn1
    · refine ⟨?_, h1, h3⟩
      show -1 * p.pos.2.1 ∈ L
      simpa [neg_one_mul] using hn2
  · have heq : Cube_Piece.rotate p a = (p, some Err.invalidArgument) := by
      unfold Cube_Piece.rotate
      rw [if_pos ha]
    rw [heq]
    exact ⟨h1, h2, h3⟩

/-- Iterated piece rotation keeps position components inside a
negation-closed coordinate list. -/
lemma applyN_rotate_pos_mem {L : List ℚ} (hneg : ∀ v ∈ L, -v ∈ L)
    (a : String) : ∀ (n : ℕ) (p : Cube_Piece), posMemL L p →
    posMemL L (applyN (fun q => (Cube_Piece.rotate q a).1) n p) := by
  intro n
  induction n with
  | zero => intro p h; exact h
  | succ n ih =>
    intro p h
    exact ih _ (Cube_Piece.rotate_pos_mem hneg a p h)

/-- `Cube.rotate` either returns the cube unchanged (on any of its error
paths) or replaces the piece list by a map of conditional iterated piece
rotations; it never touches the derived coordinate system. -/
lemma Cube.rotate_fst_cases (c : Cube) (d : String) :
    (Cube.rotate c d).1 = c ∨
    ∃ axis s n, (Cube.rotate c d).1 = { c with pcs := c.pcs.map (fun pce =>
        if Pos.get pce.pos axis ∈ Cube.layerVals c d then
          applyN (fun q => (Cube_Piece.rotate q s).1) n pce
        else pce) } := by
  unfold Cube.rotate
  split
  · exact Or.inl rfl
  · cases hax : rotateAxis d with
    | none => exact Or.inl rfl
    | some pr =>
      obtain ⟨axis, s⟩ := pr
      cases hn : rotateNum d with
      | none => exact Or.inl rfl
      | some n => exact Or.inr ⟨axis, s, n, rfl⟩

/-- One `Cube.rotate` call preserves the coordinate list. -/
lemma Cube.rotate_fst_coord_vals (c : Cube) (d : String) :
    (Cube.rotate c d).1.coord_vals = c.coord_vals := by
  rcases Cube.rotate_fst_cases c d with h | ⟨axis, s, n, h⟩ <;> rw [h]

/-- One `Cube.rotate` call keeps every piece's position components inside the
cube's (negation-closed) coordinate list. -/
lemma Cube.rotate_fst_pos_mem (c : Cube) (d : String)
    (hneg : ∀ v ∈ c.coord_vals, -v ∈ c.coord_vals)
    (hpos : ∀ p ∈ c.pcs, posMemL c.coord_vals p) :
    ∀ p ∈ (Cube.rotate c d).1.pcs, posMemL c.coord_vals p := by
  rcases Cube.rotate_fst_cases c d with h | ⟨axis, s, n, h⟩
  · rw [h]; exact hpos
  · rw [h]
    intro p hp
    simp only [List.mem_map] at hp
    obtain ⟨q, hq, rfl⟩ := hp
    by_cases hmem : Pos.get q.pos axis ∈ Cube.layerVals c d
    · simp only [if_pos hmem]
      exact applyN_rotate_pos_mem hneg s n q (hpos q hq)
    · simp only [if_neg hmem]
      exact hpos q hq

/-- The coordinate-membership invariant is preserved along any sequence of
`Cube.rotate` calls. -/
lemma Cube.rotate_fold_inv (dirs : List String) (c : Cube)
    (hneg : ∀ v ∈ c.coord_vals, -v ∈ c.coord_vals)
    (hpos : ∀ p ∈ c.pcs, posMemL c.coord_vals p) :
    (∀ v ∈ (dirs.foldl (fun c d => (Cube.rotate c d).1) c).coord_vals,
        -v ∈ (dirs.foldl (fun c d => (Cube.rotate c d).1) c).coord_vals) ∧
    (∀ p ∈ (dirs.foldl (fun c d => (Cube.rotate c d).1) c).pcs,
        posMemL (dirs.foldl (fun c d => (Cube.rotate c d).1) c).coord_vals p) := by
  induction dirs generalizing c with
  | nil => exact ⟨hneg, hpos⟩
  | cons d ds ih =>
    simp only [List.foldl_cons]
    have hcv := Cube.rotate_fst_coord_vals c d
    refine ih (Cube.rotate c d).1 ?_ ?_
    · rw [hcv]; exact hneg
    · rw [hcv]; exact Cube.rotate_fst_pos_mem c d hneg hpos

/-- C10: starting from any constructed cube, after any sequence of
`Cube.rotate` calls (accepted ones rotate a layer, all others leave the state
unchanged) the coordinate list is still closed under negation and every
piece's position components are still members of it: the position transform
only permutes and negates components, so no rotation moves a piece outside
the derived coordinate system. -/
theorem claim_C10_positions_stay_in_coords (size : ℤ) (h : 2 ≤ size)
    (dirs : List String) :
    negClosed (dirs.foldl (fun c d => (Cube.rotate c d).1) (Cube.make size)) = true ∧
    posInCoords (dirs.foldl (fun c d => (Cube.rotate c d).1) (Cube.make size)) = true := by
  have hinv := Cube.rotate_fold_inv dirs (Cube.make size)
    (Cube.make_neg_closed size) (Cube.make_pcs_pos size)
  constructor
  · simp only [negClosed, List.all_eq_true, decide_eq_true_eq]
    exact hinv.1
  · simp only [posInCoords, List.all_eq_true, Bool.and_eq_true, decide_eq_true_eq]
    intro p hp
    exact ⟨⟨(hinv.2 p hp).1, (hinv.2 p hp).2.1⟩, (hinv.2 p hp).2.2⟩

/-- C10 witness: one `"R"` call on the solved 3-cube. -/
theorem claim_C10_witness :
    negClosed ((["R"] : List String).foldl (fun c d => (Cube.rotate c d).1)
      (Cube.make 3)) = true ∧
    posInCoords ((["R"] : List String).foldl (fun c d => (Cube.rotate c d).1)
      (Cube.make 3)) = true :=
  claim_C10_positions_stay_in_coords 3 (by decide) ["R"]

/-- Head of a nonempty replicated list. -/
lemma head?_replicate_pos {d : ℕ} (hd : 1 ≤ d) (c : Char) :
    (List.replicate d c).head? = some c := by
  cases d with
  | zero => omega
  | succ n => rfl

/-- Last element of a nonempty replicated list. -/
lemma getLast?_replicate_pos {d : ℕ} (hd : 1 ≤ d) (c : Char) :
    (List.replicate d c).getLast? = some c := by
  cases d with
  | zero => omega
  | succ n => rw [List.replicate_succ', List.getLast?_concat]

/-- A nonempty replicated list ending a concatenation pins down the last
character. -/
lemma eq_of_replicate_eq_append {d : ℕ} {ch c : Char} {l : List Char}
    (hd : 1 ≤ d) (h : List.replicate d ch = l ++ [c]) : ch = c := by
  have h1 := getLast?_replicate_pos hd ch
  rw [h, List.getLast?_concat] at h1
  exact (Option.some.inj h1).symm

/-- Two equal replicated lists (the first nonempty) have equal lengths and
equal characters. -/
lemma replicate_eq_replicate {d k : ℕ} {ch c : Char} (hd : 1 ≤ d)
    (h : List.replicate d ch = List.replicate k c) : d = k ∧ ch = c := by
  have hlen : d = k := by
    have := congrArg List.length h
    simpa using this
  subst hlen
  have hh := congrArg List.head? h
  rw [head?_replicate_pos hd, head?_replicate_pos hd] at hh
  exact ⟨rfl, Option.some.inj hh⟩

/-- Flattening `n` copies of a singleton list replicates its element. -/
lemma flatten_replicate_singleton (n : ℕ) (c : Char) :
    List.flatten (List.replicate n [c]) = List.replicate n c := by
  induction n with
  | zero => rfl
  | succ m ih => simp [List.replicate_succ, ih]

/-- Repeating a one-character string yields a replicated character list. -/
lemma pyStrMul_single_data (c : Char) (n : ℕ) :
    (pyStrMul (String.mk [c]) n).data = List.replicate n c := by
  unfold pyStrMul
  exact flatten_replicate_singleton n c

/-- Strings with equal character data are equal. -/
lemma string_data_inj {s t : String} (h : s.data = t.data) : s = t := by
  cases s
  cases t
  exact congrArg String.mk h

/-- A nonempty replicated list starting a cons pins down the character. -/
lemma char_of_replicate_eq {d : ℕ} {ch c : Char} {l : List Char} (hd : 1 ≤ d)
    (h : List.replicate d ch = c :: l) : ch = c := by
  have h1 := head?_replicate_pos hd ch
  rw [h] at h1
  exact Option.some.inj (Eq.symm h1)

/-- A repeated-lowercase-face-letter token is in the legal token set exactly
when its repetition count `d` satisfies `1 ≤ d ≤ (size - 2) // 2`: the only
members of `valid_directions` consisting solely of a repeated lowercase face
letter are the `_directions_inner` entries with the empty angle suffix. -/
lemma mem_validDirections_replicate {size : ℤ} {ch : Char}
    (hch : ch ∈ (['b', 'd', 'f', 'l', 'r', 't'] : List Char)) {d : ℕ}
    (hd : 1 ≤ d) :
    String.mk (List.replicate d ch) ∈ Cube.validDirections size ↔
      (d : ℤ) ≤ (size - 2).fdiv 2 := by
  have hchne2 : ch ≠ '2' := by
    fin_cases hch <;> decide
  have hchnep : ch ≠ primeChar := by
    fin_cases hch <;> decide
  have hchnew : ch ≠ 'w' := by
    fin_cases hch <;> decide
  unfold Cube.validDirections Cube.directionsInner
  constructor
  · intro hmem
    rw [List.mem_append] at hmem
    rcases hmem with hmem | hmem
    · rw [List.mem_flatMap] at hmem
      obtain ⟨x, hx, hsuf⟩ := hmem
      rw [List.mem_map] at hsuf
      obtain ⟨suf, hsufmem, heq⟩ := hsuf
      have hdata := congrArg String.data heq.symm
      rw [String.data_append] at hdata
      rcases (by simpa using hsufmem : suf = "" ∨ suf = primeStr ∨ suf = "2") with
        rfl | rfl | rfl
      · rw [show ("" : String).data = [] from rfl, List.append_nil] at hdata
        rw [List.mem_append, List.mem_append] at hx
        rcases hx with (hx | hx) | hx
        · rcases (by simpa using hx :
              x = "B" ∨ x = "D" ∨ x = "F" ∨ x = "L" ∨ x = "R" ∨ x = "T") with
            rfl | rfl | rfl | rfl | rfl | rfl
          all_goals
            have hcc := char_of_replicate_eq hd hdata
            subst hcc
            exact absurd hch (by decide)
        · rw [List.mem_flatMap] at hx
          obtain ⟨s0, hs0, hsin⟩ := hx
          rw [List.mem_map] at hsin
          obtain ⟨i, hi, rfl⟩ := hsin
          rw [List.mem_range] at hi
          rcases (by simpa using hs0 :
              s0 = "b" ∨ s0 = "d" ∨ s0 = "f" ∨ s0 = "l" ∨ s0 = "r" ∨ s0 = "t") with
            rfl | rfl | rfl | rfl | rfl | rfl
          all_goals
            obtain ⟨hdi, rfl⟩ := replicate_eq_replicate hd
              (hdata.trans (pyStrMul_single_data _ (i + 1)))
          all_goals
            generalize he : (size - 2).fdiv 2 = e at *
          all_goals omega
        · rcases (by simpa using hx : x = "x" ∨ x = "y" ∨ x = "z") with
            rfl | rfl | rfl
          all_goals
            have hcc := char_of_replicate_eq hd hdata
            subst hcc
            exact absurd hch (by decide)
      · exact absurd (eq_of_replicate_eq_append hd hdata) hchnep
      · exact absurd (eq_of_replicate_eq_append hd hdata) hchne2
    · rw [List.mem_map] at hmem
      obtain ⟨x, hx, heq⟩ := hmem
      have hdata := congrArg String.data heq.symm
      rw [String.data_append] at hdata
      exact absurd (eq_of_replicate_eq_append hd hdata) hchnew
  · intro hle
    have hdm : d - 1 < ((size - 2).fdiv 2).toNat := by
      generalize he : (size - 2).fdiv 2 = e at *
      omega
    rw [List.mem_append]
    left
    rw [List.mem_flatMap]
    refine ⟨pyStrMul (String.mk [ch]) d, ?_, ?_⟩
    · rw [List.mem_append]
      left
      rw [List.mem_append]
      right
      rw [List.mem_flatMap]
      refine ⟨String.mk [ch], by fin_cases hch <;> decide, ?_⟩
      rw [List.mem_map]
      exact ⟨d - 1, by rw [List.mem_range]; exact hdm,
        by rw [Nat.sub_add_cancel hd]⟩
    · rw [List.mem_map]
      refine ⟨"", by simp, ?_⟩
      apply string_data_inj
      rw [String.data_append, pyStrMul_single_data,
        show ("" : String).data = [] from rfl, List.append_nil]

/-- C5 (amended): for every size `n ≥ 2`, `Cube.rotate` enumerates as legal
exactly the single-inner-layer depths 1 through `(n - 2) // 2` (not 1 through
`n - 2` as claimed): a lowercase face letter repeated `d` times is in the
legal token set iff `d ≤ (n - 2) // 2`, and any deeper token — in particular
every depth ≥ `n - 1` — is rejected with the invalid-argument error, leaving
the cube unchanged. -/
theorem claim_C5_inner_depth_range (size : ℤ) (hsz : 2 ≤ size) (ch : Char)
    (hch : ch ∈ (['b', 'd', 'f', 'l', 'r', 't'] : List Char)) (d : ℕ)
    (hd : 1 ≤ d) :
    (String.mk (List.replicate d ch) ∈ Cube.validDirections size ↔
      (d : ℤ) ≤ (size - 2).fdiv 2) ∧
    (∀ c : Cube, c.size = size → (size - 2).fdiv 2 < (d : ℤ) →
      Cube.rotate c (String.mk (List.replicate d ch)) =
        (c, some Err.invalidArgument)) := by
  refine ⟨mem_validDirections_replicate hch hd, fun c hc hlt => ?_⟩
  apply Cube.rotate_of_not_mem
  rw [hc, mem_validDirections_replicate hch hd]
  omega

/-- C5 witness: depth 1 is legal on a 5-cube (`1 ≤ (5 - 2) // 2`), and the
depth-1 token `"f"` on a 3-cube (`(3 - 2) // 2 = 0 < 1`) is rejected with the
cube unchanged. -/
theorem claim_C5_witness :
    (String.mk (List.replicate 1 'f') ∈ Cube.validDirections 5 ↔
      ((1 : ℕ) : ℤ) ≤ ((5 : ℤ) - 2).fdiv 2) ∧
    Cube.rotate (Cube.make 3) (String.mk (List.replicate 1 'f')) =
      (Cube.make 3, some Err.invalidArgument) :=
  ⟨(claim_C5_inner_depth_range 5 (by decide) 'f' (by decide) 1 (by decide)).1,
    (claim_C5_inner_depth_range 3 (by decide) 'f' (by decide) 1 (by decide)).2
      (Cube.make 3) rfl (by decide)⟩

end Rubik
